import Mathlib

/-!
Shallow embedding of the stitchr sequence-assembly core
(`src/Stitchr/stitchrfunctions.py`), with theorems checking the
natural-language specification against it.

Nucleotide and amino-acid strings are modelled as `List Char`.
Python exceptions are modelled by the `Except PyErr` monad; Python's
slice semantics (negative indices, clamping) are modelled by `pyIdx`,
`pySlice`, `pyTake`, `pyDrop`.
-/

/-- The kinds of Python exception the embedded functions can raise. -/
inductive PyErr where
  | keyError
  | valueError
  | ioError
  | attributeError
  | indexError
  | unboundLocal
  | exception
deriving DecidableEq, Repr

instance {ε α : Type} [DecidableEq ε] [DecidableEq α] : DecidableEq (Except ε α) := fun a b =>
  match a, b with
  | .ok x, .ok y =>
    if h : x = y then .isTrue (by rw [h]) else .isFalse (fun hh => h (Except.ok.inj hh))
  | .error e, .error f =>
    if h : e = f then .isTrue (by rw [h]) else .isFalse (fun hh => h (Except.error.inj hh))
  | .ok _, .error _ => .isFalse (fun hh => Except.noConfusion hh)
  | .error _, .ok _ => .isFalse (fun hh => Except.noConfusion hh)

/-- Normalise one Python slice bound for a sequence of length `len`:
negative indices count from the end, and bounds are clamped to `[0, len]`. -/
def pyIdx (len : Nat) (i : Int) : Nat :=
  if 0 ≤ i then min i.toNat len else ((len : Int) + i).toNat

/-- Python `s[i:j]`. -/
def pySlice (s : List Char) (i j : Int) : List Char :=
  (s.take (pyIdx s.length j)).drop (pyIdx s.length i)

/-- Python `s[:j]`. -/
def pyTake (s : List Char) (j : Int) : List Char :=
  s.take (pyIdx s.length j)

/-- Python `s[i:]`.  Note `s[-0:]` is the whole string, as in Python. -/
def pyDrop (s : List Char) (i : Int) : List Char :=
  s.drop (pyIdx s.length i)

/-- The `codons` table of `stitchrfunctions.py`: standard codons plus the
N-padded codons (`N` followed by two bases, or `NN` followed by one base),
which translate to the sentinel `'_'`.  Any other triplet is absent. -/
def codonsMap : Char → Char → Char → Option Char
  | 'A', 'A', 'A' => some 'K'
  | 'A', 'A', 'C' => some 'N'
  | 'A', 'A', 'G' => some 'K'
  | 'A', 'A', 'T' => some 'N'
  | 'A', 'C', 'A' => some 'T'
  | 'A', 'C', 'C' => some 'T'
  | 'A', 'C', 'G' => some 'T'
  | 'A', 'C', 'T' => some 'T'
  | 'A', 'G', 'A' => some 'R'
  | 'A', 'G', 'C' => some 'S'
  | 'A', 'G', 'G' => some 'R'
  | 'A', 'G', 'T' => some 'S'
  | 'A', 'T', 'A' => some 'I'
  | 'A', 'T', 'C' => some 'I'
  | 'A', 'T', 'G' => some 'M'
  | 'A', 'T', 'T' => some 'I'
  | 'C', 'A', 'A' => some 'Q'
  | 'C', 'A', 'C' => some 'H'
  | 'C', 'A', 'G' => some 'Q'
  | 'C', 'A', 'T' => some 'H'
  | 'C', 'C', 'A' => some 'P'
  | 'C', 'C', 'C' => some 'P'
  | 'C', 'C', 'G' => some 'P'
  | 'C', 'C', 'T' => some 'P'
  | 'C', 'G', 'A' => some 'R'
  | 'C', 'G', 'C' => some 'R'
  | 'C', 'G', 'G' => some 'R'
  | 'C', 'G', 'T' => some 'R'
  | 'C', 'T', 'A' => some 'L'
  | 'C', 'T', 'C' => some 'L'
  | 'C', 'T', 'G' => some 'L'
  | 'C', 'T', 'T' => some 'L'
  | 'G', 'A', 'A' => some 'E'
  | 'G', 'A', 'C' => some 'D'
  | 'G', 'A', 'G' => some 'E'
  | 'G', 'A', 'T' => some 'D'
  | 'G', 'C', 'A' => some 'A'
  | 'G', 'C', 'C' => some 'A'
  | 'G', 'C', 'G' => some 'A'
  | 'G', 'C', 'T' => some 'A'
  | 'G', 'G', 'A' => some 'G'
  | 'G', 'G', 'C' => some 'G'
  | 'G', 'G', 'G' => some 'G'
  | 'G', 'G', 'T' => some 'G'
  | 'G', 'T', 'A' => some 'V'
  | 'G', 'T', 'C' => some 'V'
  | 'G', 'T', 'G' => some 'V'
  | 'G', 'T', 'T' => some 'V'
  | 'T', 'A', 'A' => some '*'
  | 'T', 'A', 'C' => some 'Y'
  | 'T', 'A', 'G' => some '*'
  | 'T', 'A', 'T' => some 'Y'
  | 'T', 'C', 'A' => some 'S'
  | 'T', 'C', 'C' => some 'S'
  | 'T', 'C', 'G' => some 'S'
  | 'T', 'C', 'T' => some 'S'
  | 'T', 'G', 'A' => some '*'
  | 'T', 'G', 'C' => some 'C'
  | 'T', 'G', 'G' => some 'W'
  | 'T', 'G', 'T' => some 'C'
  | 'T', 'T', 'A' => some 'L'
  | 'T', 'T', 'C' => some 'F'
  | 'T', 'T', 'G' => some 'L'
  | 'T', 'T', 'T' => some 'F'
  | 'N', 'N', 'A' => some '_'
  | 'N', 'N', 'C' => some '_'
  | 'N', 'N', 'G' => some '_'
  | 'N', 'N', 'T' => some '_'
  | 'N', 'A', 'A' => some '_'
  | 'N', 'A', 'C' => some '_'
  | 'N', 'A', 'T' => some '_'
  | 'N', 'A', 'G' => some '_'
  | 'N', 'C', 'A' => some '_'
  | 'N', 'C', 'C' => some '_'
  | 'N', 'C', 'T' => some '_'
  | 'N', 'C', 'G' => some '_'
  | 'N', 'T', 'A' => some '_'
  | 'N', 'T', 'C' => some '_'
  | 'N', 'T', 'T' => some '_'
  | 'N', 'T', 'G' => some '_'
  | 'N', 'G', 'A' => some '_'
  | 'N', 'G', 'C' => some '_'
  | 'N', 'G', 'T' => some '_'
  | 'N', 'G', 'G' => some '_'
  | _, _, _ => none

/-- `translate_nt`: translate complete triplets from position 0, upper-casing
each codon; a trailing partial triplet is dropped; an unknown codon raises
(`IOError` in the source). -/
def translate_nt : List Char → Except PyErr (List Char)
  | a :: b :: c :: rest =>
    match codonsMap a.toUpper b.toUpper c.toUpper with
    | some aa => (translate_nt rest).map (fun s => aa :: s)
    | none => .error .ioError
  | _ => .ok []

/-- `find_stop`: position of the first `'*'`, or the length if there is none. -/
def find_stop (seq : List Char) : Nat :=
  if '*' ∈ seq then seq.indexOf '*' else seq.length

/-- `rev_translate`: look up each residue in the codon-usage table and
concatenate; a missing residue raises (`KeyError` on the defaultdict). -/
def rev_translate : List Char → (Char → Option (List Char)) → Except PyErr (List Char)
  | [], _ => .ok []
  | x :: rest, codon_usage_dict =>
    match codon_usage_dict x with
    | none => .error .keyError
    | some cod => (rev_translate rest codon_usage_dict).map (fun s => cod ++ s)

/-- All start indices of occurrences of `pat` in `s`, in increasing order:
the indices produced by the `str.find` loop of `find_cdr3_c_term`. -/
def occurrences (pat s : List Char) : List Nat :=
  (List.range (s.length + 1 - pat.length)).filter
    (fun i => decide ((s.drop i).take pat.length = pat))

/-- Python `hay.index(pat)` for substrings, as an `Option`. -/
def substrIndex? (hay pat : List Char) : Option Nat :=
  (occurrences pat hay).head?

/-- Python `pat in hay` substring test. -/
def containsSub (hay pat : List Char) : Bool :=
  (substrIndex? hay pat).isSome

/-- The body of the `find_cdr3_c_term` generator: walk the occurrence
indices in order, accepting a hit if the motif condition holds; Python's
unguarded `j_seq[i + len(chunk)]` and `j_seq[i + len(chunk) + 2]` lookups
raise `IndexError` when out of range. -/
def scan_hits (clen : Nat) (j_seq : List Char) (strict : Bool) : List Nat → Except PyErr (List Nat)
  | [] => .ok []
  | i :: rest =>
    if strict then
      if i + clen < j_seq.length then
        if j_seq.getD (i + clen) '?' = 'G' then
          if i + clen + 2 < j_seq.length then
            if j_seq.getD (i + clen + 2) '?' = 'G' then
              (scan_hits clen j_seq strict rest).map (fun l => i :: l)
            else scan_hits clen j_seq strict rest
          else .error .indexError
        else scan_hits clen j_seq strict rest
      else .error .indexError
    else
      if i + clen < j_seq.length then
        if j_seq.getD (i + clen) '?' = 'G' then
          (scan_hits clen j_seq strict rest).map (fun l => i :: l)
        else
          if i + clen + 2 < j_seq.length then
            if j_seq.getD (i + clen + 2) '?' = 'G' then
              (scan_hits clen j_seq strict rest).map (fun l => i :: l)
            else scan_hits clen j_seq strict rest
          else .error .indexError
      else .error .indexError

/-- `find_cdr3_c_term`, fully consumed (as `determine_j_interface` does with
its list comprehensions): the accepted hit indices, or the first exception. -/
def find_cdr3_c_term (cdr3_chunk j_seq : List Char) (strict : Bool) : Except PyErr (List Nat) :=
  scan_hits cdr3_chunk.length j_seq strict (occurrences cdr3_chunk j_seq)

/-- The `for c in reversed(list(range(1, len(cdr3_cterm_aa))))` loop of
`determine_j_interface`.  `c_term_nt_trimmed` is assigned only on the
single-hit paths, so the trailing `return` raises `UnboundLocalError` when a
multi-hit search result reaches it with a chunk longer than one residue;
a single hit past position 22 hits the `search.start()` call on a list,
an `AttributeError`. -/
def dj_loop (cdr3_cterm_aa c_term_nuc window : List Char) : List Nat → Except PyErr (List Char × Nat)
  | [] => .error .valueError
  | c :: rest =>
    let c_term_cdr3_chunk := pyDrop cdr3_cterm_aa (-(c : Int))
    match find_cdr3_c_term c_term_cdr3_chunk window false with
    | .error e => .error e
    | .ok search =>
      match search with
      | [] => dj_loop cdr3_cterm_aa c_term_nuc window rest
      | [cdr3_c_end] =>
        if 22 < cdr3_c_end then .error .attributeError
        else .ok (c_term_nuc.drop (cdr3_c_end * 3), cdr3_cterm_aa.length - c)
      | _ :: _ :: _ =>
        if c_term_cdr3_chunk.length = 1 then
          match find_cdr3_c_term c_term_cdr3_chunk window true with
          | .error e => .error e
          | .ok search2 =>
            match search2 with
            | [cdr3_c_end] => .ok (c_term_nuc.drop (cdr3_c_end * 3), cdr3_cterm_aa.length - c)
            | _ => .error .valueError
        else .error .unboundLocal

/-- `determine_j_interface`: search decreasing C-terminal CDR3 chunks in the
first `gl_nt_j_len / 3` residues of the germline translation.  The warning
threshold only drives advisory text, not the computed result. -/
def determine_j_interface (cdr3_cterm_aa c_term_nuc c_term_amino : List Char)
    (gl_nt_j_len j_warning_threshold : Nat) : Except PyErr (List Char × Nat) :=
  let search_len := gl_nt_j_len / 3
  let _ := j_warning_threshold
  dj_loop cdr3_cterm_aa c_term_nuc (c_term_amino.take search_len)
    ((List.range' 1 (cdr3_cterm_aa.length - 1)).reverse)

/-- The (chunk length, deletion offset) pairs scanned by
`determine_v_interface`, in loop order: `c` from 4 down to 1, `v` from 0 to 9. -/
def vSearchSpace : List (Nat × Nat) :=
  ((List.range 10).map (fun v => (4, v))) ++ ((List.range 10).map (fun v => (3, v))) ++
    ((List.range 10).map (fun v => (2, v))) ++ ((List.range 10).map (fun v => (1, v)))

/-- The match test of `determine_v_interface`:
`cdr3aa[:c] == n_term_amino[aa_l - (c + v):aa_l - v]` (Python slicing). -/
def vMatchTest (cdr3aa n_term_amino : List Char) (c v : Nat) : Bool :=
  decide (cdr3aa.take c =
    pySlice n_term_amino ((n_term_amino.length : Int) - (c + v)) ((n_term_amino.length : Int) - v))

/-- `determine_v_interface`: return at the first matching pair, trimming the
germline nucleotides to `aa_l*3 - v*3`; raise if no pair matches. -/
def determine_v_interface (cdr3aa n_term_nuc n_term_amino : List Char) :
    Except PyErr (List Char × Nat) :=
  match vSearchSpace.find? (fun p => vMatchTest cdr3aa n_term_amino p.1 p.2) with
  | some p => .ok (pyTake n_term_nuc (3 * (n_term_amino.length : Int) - 3 * p.2), p.1)
  | none => .error .exception

/-- The step values `range(min(len(five), len(three)) - 1, -1, -1)` of
`check_suffix_prefix`. -/
def suffixSteps (five three : List Char) : List Nat :=
  (List.range (min five.length three.length)).reverse

/-- `check_suffix_prefix`: the longest `n < min(len five, len three)` with
`five[-n:] == three[:n]`, returning `three[:n]` (empty when none matches;
`five[-0:]` is all of `five`, so `n = 0` only matches when `five` is empty). -/
def check_suffix_prefix (five_prime_seq three_prime_seq : List Char) : List Char :=
  match (suffixSteps five_prime_seq three_prime_seq).find?
      (fun (n : Nat) => decide (pyDrop five_prime_seq (-(n : Int)) = three_prime_seq.take n)) with
  | some n => three_prime_seq.take n
  | none => []

/-- Python `range(start, stop, -1)` over the integers. -/
def pyRangeDown (start stop : Int) : List Int :=
  (List.range (start - stop).toNat).map (fun (k : Nat) => start - k)

/-- The index list `[x for x in range(len(v)-1, len(v)-len(obs), -1) if x > 0]`
of `find_v_overlap`. -/
def vOverlapIdxs (v_germline nt_cdr3 : List Char) : List Nat :=
  ((pyRangeDown ((v_germline.length : Int) - 1)
      ((v_germline.length : Int) - nt_cdr3.length)).filter (fun x => decide (0 < x))).map Int.toNat

/-- One iteration of the `find_v_overlap` loop: the state is
`(longest_overlap, index_longest)`, updated only on a strictly longer overlap. -/
def vOverlapStep (v_germline nt_cdr3 : List Char) (st : List Char × Nat) (i : Nat) :
    List Char × Nat :=
  let overlap := check_suffix_prefix (v_germline.take i) nt_cdr3
  if st.1.length < overlap.length then (overlap, i) else st

/-- `find_v_overlap`: scan shortened prefixes of the germline V from long to
short, keep the first strictly-longest suffix/prefix overlap with the
observed sequence, and return the germline cut before that overlap, with the
overlap itself. -/
def find_v_overlap (v_germline nt_cdr3 : List Char) : List Char × List Char :=
  let final := (vOverlapIdxs v_germline nt_cdr3).foldl (vOverlapStep v_germline nt_cdr3) ([], 0)
  (pyTake v_germline ((final.2 : Int) - final.1.length), final.1)

/-- One pass over the `translations` dict accumulated by `tidy_c_term`,
updating `(best, position)` exactly as the inner
`for frame in translations` loop does. -/
def scanFrames : Nat → List (List Char) → Int × Int → Int × Int
  | _, [], st => st
  | idx, tr :: rest, (best, position) =>
    if position < (find_stop tr : Int) then
      scanFrames (idx + 1) rest ((idx : Int), (find_stop tr : Int))
    else scanFrames (idx + 1) rest (best, position)

/-- The `for f in range(4)` loop of `tidy_c_term`, with the frame list as the
recursion argument and `(c_term_nt, translations, best, position)` as the
mutable state.  Mirrors the source exactly: the heuristic branch runs when
`skip or c_gene not in c_region_motifs['start']`, returns at `f == 3`; the
motif branch runs when `not skip or c_gene in c_region_motifs['start']` and
its `c_region_motifs['start'][c_gene]` lookup raises `KeyError` on a missing
gene (the tables are plain `defaultdict()`s with no factory); `str.index` on
an absent stop motif raises `ValueError`; falling out of the loop returns
`c_term_nt[3:]` with the frame-3 translation. -/
def tidy_go (skip : Bool) (startM stopM : String → Option (List Char))
    (exonsM : String → Option String) (c_gene : String) :
    List Nat → List Char → List (List Char) → Int → Int → Except PyErr (List Char × List Char)
  | [], c_term_nt, translations, _, _ => .ok (c_term_nt.drop 3, translations.getD 3 [])
  | f :: fs, c_term_nt, translations, best, position =>
    match translate_nt (c_term_nt.drop f) with
    | .error e => .error e
    | .ok translated =>
      let translations := translations ++ [translated]
      let heuristic := skip || !(startM c_gene).isSome
      let st := if heuristic then scanFrames 0 translations (best, position) else (best, position)
      if heuristic && f == 3 then
        .ok (pyDrop c_term_nt st.1, translations.getD st.1.toNat [])
      else if !skip || (startM c_gene).isSome then
        match startM c_gene with
        | none => .error .keyError
        | some start_motif =>
          if containsSub translated start_motif then
            match stopM c_gene with
            | some stop_motif =>
              match substrIndex? translated stop_motif with
              | none => .error .valueError
              | some stop_index_aa =>
                let c_term_nt := c_term_nt.take (stop_index_aa * 3 + f)
                match translate_nt (c_term_nt.drop f) with
                | .error e => .error e
                | .ok translated =>
                  match exonsM c_gene with
                  | none => .error .keyError
                  | some _ => .ok (c_term_nt.drop f, translated)
            | none => .ok (c_term_nt.drop f, translated)
          else tidy_go skip startM stopM exonsM c_gene fs c_term_nt translations st.1 st.2
      else tidy_go skip startM stopM exonsM c_gene fs c_term_nt translations st.1 st.2

/-- `tidy_c_term`: pick the right frame for the J+C nucleotide sequence.
The C-region motif table is passed as its three columns
(`start`, `stop`, `exons`). -/
def tidy_c_term (c_term_nt : List Char) (skip : Bool) (startM stopM : String → Option (List Char))
    (exonsM : String → Option String) (c_gene : String) : Except PyErr (List Char × List Char) :=
  tidy_go skip startM stopM exonsM c_gene [0, 1, 2, 3] c_term_nt [] (-1) (-1)

/-- C7 counterexample: the triplet `AAN` contains the placeholder base `N`
but raises a translation error instead of translating to `'_'`, because the
codon table only lists N-padded codons whose `N`s are leading. -/
theorem C7_counterexample :
    translate_nt ['A', 'A', 'N'] = .error .ioError ∧ translate_nt ['A', 'A', 'N'] ≠ .ok ['_'] :=
  ⟨by decide, by decide⟩

/-- C7 (amended): `translate_nt` groups triplets from position 0, silently
drops a trailing partial triplet, maps known codons through the table, maps
the N-padded triplets (`N` followed by two standard bases, or `NN` followed
by one standard base) to `'_'`, and raises for any other unknown triplet —
including triplets that contain `N` elsewhere, such as `AAN` or `NNN`. -/
theorem C7_translate_nt_behaviour :
    (∀ s : List Char, s.length ≤ 2 → translate_nt s = .ok [])
    ∧ (∀ a b c : Char, ∀ rest : List Char, ∀ aa : Char,
        codonsMap a.toUpper b.toUpper c.toUpper = some aa →
        translate_nt (a :: b :: c :: rest) = (translate_nt rest).map (fun t => aa :: t))
    ∧ (∀ a b c : Char, ∀ rest : List Char,
        codonsMap a.toUpper b.toUpper c.toUpper = none →
        translate_nt (a :: b :: c :: rest) = .error .ioError)
    ∧ (∀ b ∈ (['A', 'C', 'G', 'T'] : List Char), ∀ c ∈ (['A', 'C', 'G', 'T'] : List Char),
        codonsMap 'N' b c = some '_' ∧ codonsMap 'N' 'N' b = some '_')
    ∧ codonsMap 'A' 'A' 'N' = none ∧ codonsMap 'N' 'N' 'N' = none := by
  refine ⟨?_, ?_, ?_, by decide, by decide, by decide⟩
  · intro s hs
    rcases s with _ | ⟨a, _ | ⟨b, _ | ⟨c, rest⟩⟩⟩
    · rfl
    · rfl
    · rfl
    · simp only [List.length_cons] at hs; omega
  · intro a b c rest aa h
    simp only [translate_nt, h]
  · intro a b c rest h
    simp only [translate_nt, h]

/-- C7 witness: a leading-`N` padding triplet translates to `'_'`, while a
trailing-`N` triplet raises. -/
theorem C7_witness :
    translate_nt ['N', 'A', 'A'] = .ok ['_'] ∧ translate_nt ['A', 'A', 'N'] = .error .ioError := by
  have h := C7_translate_nt_behaviour
  constructor
  · rw [h.2.1 'N' 'A' 'A' [] '_' (by decide)]; rfl
  · exact h.2.2.1 'A' 'A' 'N' [] (by decide)

/-- C8: `rev_translate` concatenates each residue's codon in order (so with a
well-formed table of 3-nucleotide codons the output has exactly 3 times the
input length), and raises `KeyError` whenever some residue has no entry. -/
theorem C8_rev_translate_contract (aa : List Char) (d : Char → Option (List Char)) :
    ((∀ x ∈ aa, ∃ cod, d x = some cod ∧ cod.length = 3) →
      ∃ out, rev_translate aa d = .ok out ∧ out.length = 3 * aa.length)
    ∧ ((∃ x ∈ aa, d x = none) → rev_translate aa d = .error .keyError) := by
  induction aa with
  | nil =>
    constructor
    · intro _; exact ⟨[], rfl, rfl⟩
    · rintro ⟨x, hx, -⟩; simp at hx
  | cons y rest ih =>
    constructor
    · intro h
      obtain ⟨cod, hcod, hlen⟩ := h y (List.mem_cons_self _ _)
      obtain ⟨out, hout, holen⟩ := ih.1 (fun x hx => h x (List.mem_cons_of_mem _ hx))
      refine ⟨cod ++ out, ?_, ?_⟩
      · simp only [rev_translate, hcod, hout]; rfl
      · simp only [List.length_append, hlen, holen, List.length_cons]; ring
    · rintro ⟨x, hx, hnone⟩
      rcases List.mem_cons.mp hx with rfl | hx2
      · simp only [rev_translate, hnone]
      · cases hy : d y with
        | none => simp only [rev_translate, hy]
        | some cod => simp only [rev_translate, hy, ih.2 ⟨x, hx2, hnone⟩]; rfl

/-- C8 witness: on a table holding 3-nucleotide codons for `C` and `A`, the
back-translation of `CA` is a 6-nucleotide success, and the back-translation
of `CX` raises. -/
theorem C8_witness :
    (∃ out, rev_translate ['C', 'A']
        (fun x => if x = 'C' then some ['T', 'G', 'T']
          else if x = 'A' then some ['G', 'C', 'T'] else none) = .ok out ∧
        out.length = 3 * (['C', 'A'] : List Char).length)
    ∧ rev_translate ['C', 'X']
        (fun x => if x = 'C' then some ['T', 'G', 'T']
          else if x = 'A' then some ['G', 'C', 'T'] else none) = .error .keyError := by
  constructor
  · refine (C8_rev_translate_contract ['C', 'A'] _).1 ?_
    intro x hx
    rcases List.mem_cons.mp hx with rfl | hx2
    · exact ⟨['T', 'G', 'T'], rfl, rfl⟩
    · simp only [List.mem_singleton] at hx2
      subst hx2
      exact ⟨['G', 'C', 'T'], rfl, rfl⟩
  · exact (C8_rev_translate_contract ['C', 'X'] _).2 ⟨'X', by simp, by decide⟩

/-- C9: the junction and overlap search loops are all bounded traversals:
`determine_v_interface` scans exactly the 40 pairs of `vSearchSpace`; the
`str.find` loop of `find_cdr3_c_term` walks a strictly increasing list of at
most `len(window) + 1` occurrence indices; the `find_v_overlap` scan visits
at most `len(observed)` prefix lengths, and each `check_suffix_prefix` call
tests exactly `min` of the two lengths overlap widths. -/
theorem C9_loops_bounded :
    vSearchSpace.length = 40
    ∧ (∀ pat s : List Char,
        List.Chain' (· < ·) (occurrences pat s) ∧ (occurrences pat s).length ≤ s.length + 1)
    ∧ (∀ v obs : List Char, (vOverlapIdxs v obs).length ≤ obs.length)
    ∧ (∀ five three : List Char,
        (suffixSteps five three).length = min five.length three.length) := by
  refine ⟨by decide, fun pat s => ⟨?_, ?_⟩, fun v obs => ?_, fun five three => by
    simp [suffixSteps]⟩
  · exact ((List.pairwise_lt_range _).filter _).chain'
  · refine le_trans (List.length_filter_le _ _) ?_
    simp only [List.length_range]
    omega
  · unfold vOverlapIdxs
    rw [List.length_map]
    refine le_trans (List.length_filter_le _ _) ?_
    unfold pyRangeDown
    rw [List.length_map, List.length_range]
    omega

theorem mem_occurrences_iff {pat s : List Char} {i : Nat} :
    i ∈ occurrences pat s ↔ i + pat.length ≤ s.length ∧ (s.drop i).take pat.length = pat := by
  unfold occurrences
  simp only [List.mem_filter, List.mem_range, decide_eq_true_eq]
  constructor
  · rintro ⟨h1, h2⟩; exact ⟨by omega, h2⟩
  · rintro ⟨h1, h2⟩; exact ⟨by omega, h2⟩

theorem scan_hits_error_nonstrict (clen : Nat) (seq : List Char) :
    ∀ l : List Nat, ∀ i ∈ l,
      (seq.length ≤ i + clen ∨ (seq.length ≤ i + clen + 2 ∧ seq.getD (i + clen) '?' ≠ 'G')) →
      scan_hits clen seq false l = .error .indexError := by
  intro l
  induction l with
  | nil => intro i hi; simp at hi
  | cons j rest ih =>
    intro i hi htrip
    rcases List.mem_cons.mp hi with rfl | hmem
    · simp only [scan_hits, Bool.false_eq_true, if_false]
      rcases htrip with h | ⟨h2, h3⟩
      · rw [if_neg (by omega)]
      · by_cases h1 : i + clen < seq.length
        · rw [if_pos h1, if_neg h3, if_neg (by omega)]
        · rw [if_neg h1]
    · have hrec := ih i hmem htrip
      simp only [scan_hits, Bool.false_eq_true, if_false]
      by_cases h1 : j + clen < seq.length
      · rw [if_pos h1]
        by_cases h2 : seq.getD (j + clen) '?' = 'G'
        · rw [if_pos h2, hrec]; rfl
        · rw [if_neg h2]
          by_cases h3 : j + clen + 2 < seq.length
          · rw [if_pos h3]
            by_cases h4 : seq.getD (j + clen + 2) '?' = 'G'
            · rw [if_pos h4, hrec]; rfl
            · rw [if_neg h4, hrec]
          · rw [if_neg h3]
      · rw [if_neg h1]

/-- C10: an occurrence of the chunk ending at the last position of the
searched window, or ending within two residues of its end without a `G`
right after the chunk, makes `find_cdr3_c_term` raise `IndexError`; and
through `determine_j_interface` this fires whenever the first candidate
chunk occurs as a suffix of the searched window. -/
theorem C10_out_of_range_hits_crash :
    (∀ (chunk window : List Char) (i : Nat), i ∈ occurrences chunk window →
        (i + chunk.length = window.length ∨
          (window.length ≤ i + chunk.length + 2 ∧ window.getD (i + chunk.length) '?' ≠ 'G')) →
        find_cdr3_c_term chunk window false = .error .indexError)
    ∧ (∀ (cdr3 nuc amino : List Char) (jlen thr : Nat), 2 ≤ cdr3.length →
        (∃ i ∈ occurrences (pyDrop cdr3 (-((cdr3.length - 1 : Nat) : Int)))
            (amino.take (jlen / 3)),
          i + (pyDrop cdr3 (-((cdr3.length - 1 : Nat) : Int))).length =
            (amino.take (jlen / 3)).length) →
        determine_j_interface cdr3 nuc amino jlen thr = .error .indexError) := by
  have part1 : ∀ (chunk window : List Char) (i : Nat), i ∈ occurrences chunk window →
      (i + chunk.length = window.length ∨
        (window.length ≤ i + chunk.length + 2 ∧ window.getD (i + chunk.length) '?' ≠ 'G')) →
      find_cdr3_c_term chunk window false = .error .indexError := by
    intro chunk window i hm htrip
    unfold find_cdr3_c_term
    refine scan_hits_error_nonstrict _ _ _ i hm ?_
    rcases htrip with h | h
    · left; omega
    · right; exact h
  refine ⟨part1, ?_⟩
  rintro cdr3 nuc amino jlen thr hc ⟨i, hmem, hsuffix⟩
  unfold determine_j_interface
  have hm : cdr3.length - 1 = (cdr3.length - 2) + 1 := by omega
  have hone : 1 + (cdr3.length - 2) = cdr3.length - 1 := by omega
  rw [hm, List.range'_concat, List.reverse_append, List.reverse_singleton]
  simp only [one_mul]
  rw [hone]
  simp only [List.singleton_append, dj_loop]
  rw [part1 _ _ i hmem (Or.inl hsuffix)]

/-- C10 witness: `AW` as a suffix of the window crashes the scan, and a
1-residue chunk matching only at the window's last position crashes
`determine_j_interface`. -/
theorem C10_witness :
    find_cdr3_c_term ['A', 'W'] ['K', 'K', 'K', 'A', 'W'] false = .error .indexError
    ∧ determine_j_interface ['K', 'W'] ['A', 'A', 'A'] ['K', 'K', 'W'] 9 0 =
        .error .indexError :=
  ⟨C10_out_of_range_hits_crash.1 ['A', 'W'] ['K', 'K', 'K', 'A', 'W'] 3 (by decide)
      (Or.inl (by decide)),
    C10_out_of_range_hits_crash.2 ['K', 'W'] ['A', 'A', 'A'] ['K', 'K', 'W'] 9 0 (by decide)
      ⟨2, by decide, by decide⟩⟩

/-- C4: with a single accepted hit 23 residues into the germline J
translation, `determine_j_interface` does not emit an advisory and return
the split — it crashes: the advisory line calls `search.start()` on a plain
list, an `AttributeError`. -/
theorem C4_advisory_crash :
    find_cdr3_c_term ['A', 'W']
        (List.replicate 23 'K' ++ ['A', 'W', 'G'] ++ List.replicate 2 'K') false = .ok [23]
    ∧ determine_j_interface ['K', 'A', 'W'] (List.replicate 84 'A')
        (List.replicate 23 'K' ++ ['A', 'W', 'G'] ++ List.replicate 2 'K') 84 0 =
      .error .attributeError :=
  ⟨by decide, by decide⟩

/-- C3 counterexample: the longest candidate chunk `AW` has exactly one
accepted hit (at index 23) in the searched window, yet `determine_j_interface`
raises instead of returning the germline cut at `3 * 23`. -/
theorem C3_counterexample :
    find_cdr3_c_term ['A', 'W']
        ((List.replicate 23 'R' ++ ['A', 'W', 'G'] ++ List.replicate 2 'R').take (84 / 3))
        false = .ok [23]
    ∧ determine_j_interface ['K', 'A', 'W'] (List.replicate 84 'C')
        (List.replicate 23 'R' ++ ['A', 'W', 'G'] ++ List.replicate 2 'R') 84 0 =
      .error .attributeError :=
  ⟨by decide, by decide⟩

/-- C2: with checks enabled, a registered start motif (`W` for `TRAC` here)
and no frame whose translation contains it, `tidy_c_term` does not raise:
it falls out of the loop and silently returns `c_term_nt[3:]` with the
frame-3 translation.  (The first conjunct certifies that no frame contains
the motif.) -/
theorem C2_missing_motif_returns_silently :
    (([0, 1, 2, 3] : List Nat).all (fun f =>
        match translate_nt (("AAAAAA".toList).drop f) with
        | .ok t => !containsSub t ['W']
        | .error _ => false) = true)
    ∧ tidy_c_term "AAAAAA".toList false (fun g => if g = "TRAC" then some ['W'] else none)
        (fun _ => none) (fun _ => none) "TRAC" = .ok ("AAA".toList, ['K']) :=
  ⟨by decide, by decide⟩

theorem pyDrop_neg_length (s : List Char) (c : Nat) (h1 : 1 ≤ c) (h2 : c ≤ s.length) :
    (pyDrop s (-(c : Int))).length = c := by
  unfold pyDrop pyIdx
  rw [if_neg (by omega), List.length_drop]
  omega

theorem dj_loop_reach (cdr3 nuc window : List Char) (c : Nat) :
    ∀ l : List Nat, List.Pairwise (fun a b => b < a) l → c ∈ l →
    (∀ cq ∈ l, c < cq →
      find_cdr3_c_term (pyDrop cdr3 (-(cq : Int))) window false = .ok []) →
    find_cdr3_c_term (pyDrop cdr3 (-(c : Int))) window false ≠ .ok [] →
    dj_loop cdr3 nuc window l = dj_loop cdr3 nuc window [c] := by
  intro l
  induction l with
  | nil => intro _ hc; simp at hc
  | cons j rest ih =>
    intro hpw hc hskip hne
    rcases List.mem_cons.mp hc with rfl | hmem
    · simp only [dj_loop]
      cases hfind : find_cdr3_c_term (pyDrop cdr3 (-(c : Int))) window false with
      | error e => rfl
      | ok search =>
        cases search with
        | nil => exact absurd hfind hne
        | cons a t => cases t with
          | nil => rfl
          | cons b t2 => rfl
    · have hjc : c < j := (List.pairwise_cons.mp hpw).1 c hmem
      have hj := hskip j (List.mem_cons_self _ _) hjc
      simp only [dj_loop]
      rw [hj]
      exact ih (List.pairwise_cons.mp hpw).2 hmem
        (fun cq hq hlt => hskip cq (List.mem_cons_of_mem _ hq) hlt) hne

/-- C3 (amended): when every longer candidate chunk yields no accepted hit,
`determine_j_interface` stops at the first chunk length whose search yields
exactly one accepted hit and — provided that hit starts at most 22 residues
into the window — returns the germline cut at 3 times the hit index, paired
with the remaining-CDR3 length minus the chunk length.  A chunk of more than
one residue that yields several accepted hits yields no result: the
function aborts with an exception. -/
theorem C3_determine_j_first_unique (cdr3 nuc amino : List Char) (jlen thr c i : Nat)
    (hm2 : 2 ≤ cdr3.length) (hc1 : 1 ≤ c) (hc2 : c ≤ cdr3.length - 1)
    (hlonger : ∀ cq : Nat, c < cq → cq < cdr3.length →
      find_cdr3_c_term (pyDrop cdr3 (-(cq : Int))) (amino.take (jlen / 3)) false = .ok []) :
    (find_cdr3_c_term (pyDrop cdr3 (-(c : Int))) (amino.take (jlen / 3)) false = .ok [i] →
      i ≤ 22 →
      determine_j_interface cdr3 nuc amino jlen thr = .ok (nuc.drop (i * 3), cdr3.length - c))
    ∧ (∀ hits : List Nat,
        find_cdr3_c_term (pyDrop cdr3 (-(c : Int))) (amino.take (jlen / 3)) false = .ok hits →
        2 ≤ hits.length → 2 ≤ c →
        ∃ e, determine_j_interface cdr3 nuc amino jlen thr = .error e) := by
  have hl : List.Pairwise (fun a b => b < a) ((List.range' 1 (cdr3.length - 1)).reverse) := by
    rw [List.pairwise_reverse]
    exact List.pairwise_lt_range' 1 _
  have hcmem : c ∈ (List.range' 1 (cdr3.length - 1)).reverse := by
    rw [List.mem_reverse, List.mem_range'_1]
    omega
  have hskip : ∀ cq ∈ (List.range' 1 (cdr3.length - 1)).reverse, c < cq →
      find_cdr3_c_term (pyDrop cdr3 (-(cq : Int))) (amino.take (jlen / 3)) false = .ok [] := by
    intro cq hq hlt
    rw [List.mem_reverse, List.mem_range'_1] at hq
    exact hlonger cq hlt (by omega)
  constructor
  · intro hfind hle
    simp only [determine_j_interface]
    rw [dj_loop_reach cdr3 nuc _ c _ hl hcmem hskip (by rw [hfind]; simp)]
    simp only [dj_loop]
    rw [hfind]
    have hni : ¬(22 < i) := by omega
    simp [hni]
  · intro hits hfind h2 hcge
    rcases hits with _ | ⟨a, _ | ⟨b, t⟩⟩
    · simp at h2
    · simp at h2
    · refine ⟨.unboundLocal, ?_⟩
      simp only [determine_j_interface]
      rw [dj_loop_reach cdr3 nuc _ c _ hl hcmem hskip (by rw [hfind]; simp)]
      simp only [dj_loop]
      rw [hfind]
      have hchunk : (pyDrop cdr3 (-(c : Int))).length = c :=
        pyDrop_neg_length cdr3 c hc1 (by omega)
      have hne1 : ¬((pyDrop cdr3 (-(c : Int))).length = 1) := by omega
      simp [hne1]

/-- C3 witness: with CDR3 remainder `KAW` and window `AWGKK`, the longest
chunk `AW` has the single accepted hit 0, and the resolver returns the
whole germline with one non-templated residue. -/
theorem C3_witness :
    determine_j_interface ['K', 'A', 'W'] (List.replicate 6 'C') ['A', 'W', 'G', 'K', 'K'] 15 0 =
      .ok (List.replicate 6 'C', 1) := by
  have h := (C3_determine_j_first_unique ['K', 'A', 'W'] (List.replicate 6 'C')
    ['A', 'W', 'G', 'K', 'K'] 15 0 2 0 (by decide) (by decide) (by decide)
    (by intro cq h1 h2; simp only [List.length_cons, List.length_nil] at h2; omega)).1
    (by decide) (by decide)
  simpa using h

theorem range'_find?_eq_some (p : Nat → Bool) :
    ∀ (len s v : Nat), s ≤ v → v < s + len →
    (∀ w, s ≤ w → w < v → p w = false) → p v = true →
    (List.range' s len).find? p = some v := by
  intro len
  induction len with
  | zero => intro s v h1 h2 _ _; omega
  | succ m ih =>
    intro s v h1 h2 hb hp
    rw [List.range'_succ]
    by_cases hsv : s = v
    · subst hsv
      exact List.find?_cons_of_pos _ hp
    · rw [List.find?_cons_of_neg _ (by simp [hb s le_rfl (by omega)])]
      exact ih (s + 1) v (by omega) (by omega) (fun w hw1 hw2 => hb w (by omega) hw2) hp

theorem range_find?_eq_some (p : Nat → Bool) (n v : Nat) (hv : v < n)
    (hb : ∀ w, w < v → p w = false) (hp : p v = true) :
    (List.range n).find? p = some v := by
  rw [List.range_eq_range']
  exact range'_find?_eq_some p n 0 v (by omega) (by omega) (fun w _ h2 => hb w h2) hp

theorem range_find?_none (p : Nat → Bool) (n : Nat) (hb : ∀ w, w < n → p w = false) :
    (List.range n).find? p = none :=
  List.find?_eq_none.mpr (fun x hx => by simp [hb x (List.mem_range.mp hx)])

/-- C6: `determine_v_interface` scans chunk lengths 4,3,2,1 and, inside each,
deletion offsets 0..9; at the first matching pair it returns the germline
truncated to `3*(n - v)` nucleotides together with the matched chunk length;
it raises exactly when no pair in the search space matches. -/
theorem C6_determine_v_first_match (cdr3aa nuc amino : List Char) (n : Nat)
    (hn : amino.length = n) (hnuc : nuc.length = 3 * n) :
    (∀ c v : Nat, 1 ≤ c → c ≤ 4 → v ≤ 9 → v ≤ n →
      cdr3aa.take c = pySlice amino ((n : Int) - (c + v)) ((n : Int) - v) →
      (∀ cq vq : Nat, 1 ≤ cq → cq ≤ 4 → vq ≤ 9 → (c < cq ∨ (cq = c ∧ vq < v)) →
        cdr3aa.take cq ≠ pySlice amino ((n : Int) - (cq + vq)) ((n : Int) - vq)) →
      determine_v_interface cdr3aa nuc amino = .ok (nuc.take (3 * (n - v)), c))
    ∧ ((∀ cq vq : Nat, 1 ≤ cq → cq ≤ 4 → vq ≤ 9 →
        cdr3aa.take cq ≠ pySlice amino ((n : Int) - (cq + vq)) ((n : Int) - vq)) →
      determine_v_interface cdr3aa nuc amino = .error .exception) := by
  subst hn
  constructor
  · intro c v hc1 hc4 hv9 hvn hmatch hbefore
    have hnoneblk : ∀ cq : Nat, c < cq → cq ≤ 4 →
        ((List.range 10).map (fun w => (cq, w))).find?
          (fun p => vMatchTest cdr3aa amino p.1 p.2) = none := by
      intro cq hlt hle
      rw [List.find?_map]
      rw [range_find?_none]
      · rfl
      · intro w hw
        have hb := hbefore cq w (by omega) hle (by omega) (Or.inl hlt)
        simp only [Function.comp, vMatchTest]
        exact decide_eq_false hb
    have hsomeblk :
        ((List.range 10).map (fun w => (c, w))).find?
          (fun p => vMatchTest cdr3aa amino p.1 p.2) = some (c, v) := by
      rw [List.find?_map]
      rw [range_find?_eq_some _ 10 v (by omega) ?_ ?_]
      · rfl
      · intro w hw
        have hb := hbefore c w hc1 hc4 (by omega) (Or.inr ⟨rfl, hw⟩)
        simp only [Function.comp, vMatchTest]
        exact decide_eq_false hb
      · simp only [Function.comp, vMatchTest]
        exact decide_eq_true hmatch
    have key : vSearchSpace.find? (fun p => vMatchTest cdr3aa amino p.1 p.2) = some (c, v) := by
      unfold vSearchSpace
      rw [List.find?_append, List.find?_append, List.find?_append]
      interval_cases c
      · rw [hnoneblk 4 (by omega) (by omega), hnoneblk 3 (by omega) (by omega),
          hnoneblk 2 (by omega) (by omega), hsomeblk]
        rfl
      · rw [hnoneblk 4 (by omega) (by omega), hnoneblk 3 (by omega) (by omega), hsomeblk]
        rfl
      · rw [hnoneblk 4 (by omega) (by omega), hsomeblk]
        rfl
      · rw [hsomeblk]
        rfl
    have harm : determine_v_interface cdr3aa nuc amino =
        .ok (pyTake nuc (3 * (amino.length : Int) - 3 * (v : Int)), c) := by
      unfold determine_v_interface
      rw [key]
    rw [harm]
    have hpt : pyTake nuc (3 * (amino.length : Int) - 3 * (v : Int)) =
        nuc.take (3 * (amino.length - v)) := by
      unfold pyTake pyIdx
      rw [if_pos (by omega)]
      have h1 : ((3 : Int) * amino.length - 3 * v).toNat = 3 * (amino.length - v) := by omega
      rw [h1, hnuc, Nat.min_eq_left (by omega)]
    rw [hpt]
  · intro hall
    have hnoneblk : ∀ cq : Nat, 1 ≤ cq → cq ≤ 4 →
        ((List.range 10).map (fun w => (cq, w))).find?
          (fun p => vMatchTest cdr3aa amino p.1 p.2) = none := by
      intro cq h1 h4
      rw [List.find?_map]
      rw [range_find?_none]
      · rfl
      · intro w hw
        have hb := hall cq w h1 h4 (by omega)
        simp only [Function.comp, vMatchTest]
        exact decide_eq_false hb
    unfold determine_v_interface vSearchSpace
    rw [List.find?_append, List.find?_append, List.find?_append,
      hnoneblk 4 (by omega) (by omega), hnoneblk 3 (by omega) (by omega),
      hnoneblk 2 (by omega) (by omega), hnoneblk 1 (by omega) (by omega)]
    rfl

/-- C6 witness: germline translation ending in `CASS` and CDR3 `CASSYF`
match at chunk length 4 with zero deletions, keeping the whole germline. -/
theorem C6_witness :
    determine_v_interface "CASSYF".toList (List.replicate 39 'G')
        (List.replicate 9 'A' ++ "CASS".toList) = .ok (List.replicate 39 'G', 4) := by
  have h := (C6_determine_v_first_match "CASSYF".toList (List.replicate 39 'G')
    (List.replicate 9 'A' ++ "CASS".toList) 13 (by decide) (by decide)).1 4 0
    (by decide) (by decide) (by decide) (by decide) (by decide)
    (by
      intro cq vq h1 h2 h3 h4
      rcases h4 with h | ⟨rfl, h⟩
      · omega
      · omega)
  simpa using h

theorem scanFrames_le (trs : List (List Char)) :
    ∀ (idx : Nat) (b p : Int), (∀ tr ∈ trs, (find_stop tr : Int) ≤ p) →
    scanFrames idx trs (b, p) = (b, p) := by
  induction trs with
  | nil => intro idx b p _; rfl
  | cons t rest ih =>
    intro idx b p h
    simp only [scanFrames]
    rw [if_neg (by have := h t (List.mem_cons_self _ _); omega)]
    exact ih _ _ _ (fun tr htr => h tr (List.mem_cons_of_mem _ htr))

theorem scanFrames_append (l1 l2 : List (List Char)) :
    ∀ (idx : Nat) (st : Int × Int),
    scanFrames idx (l1 ++ l2) st = scanFrames (idx + l1.length) l2 (scanFrames idx l1 st) := by
  induction l1 with
  | nil => intro idx st; simp [scanFrames]
  | cons t rest ih =>
    intro idx st
    rcases st with ⟨b, p⟩
    simp only [List.cons_append, scanFrames, List.append_eq]
    by_cases h : p < (find_stop t : Int)
    · rw [if_pos h, if_pos h, ih]
      simp only [List.length_cons]
      ring_nf
    · rw [if_neg h, if_neg h, ih]
      simp only [List.length_cons]
      ring_nf

theorem scanFrames_snoc (trs : List (List Char)) (t : List Char) (idx : Nat) (b p : Int)
    (h : ∀ tr ∈ trs, (find_stop tr : Int) ≤ p) :
    scanFrames idx (trs ++ [t]) (b, p) =
      if p < (find_stop t : Int) then (((idx + trs.length : Nat) : Int), (find_stop t : Int))
      else (b, p) := by
  rw [scanFrames_append, scanFrames_le trs idx b p h]
  simp only [scanFrames]

theorem drop_min_length (s : List Char) (k : Nat) : s.drop (min k s.length) = s.drop k := by
  rcases le_total k s.length with h | h
  · rw [Nat.min_eq_left h]
  · rw [Nat.min_eq_right h, List.drop_eq_nil_of_le le_rfl, List.drop_eq_nil_of_le h]

theorem pyDrop_natCast (s : List Char) (k : Nat) : pyDrop s (k : Int) = s.drop k := by
  unfold pyDrop pyIdx
  rw [if_pos (by omega), Int.toNat_natCast]
  exact drop_min_length s k


theorem scanFrames_step (trs : List (List Char)) (t : List Char) (bv mv k : Nat)
    (hk : trs.length = k) (h : ∀ tr ∈ trs, find_stop tr ≤ mv) :
    scanFrames 0 (trs ++ [t]) ((bv : Int), (mv : Int)) =
      if mv < find_stop t then ((k : Int), (find_stop t : Int))
      else ((bv : Int), (mv : Int)) := by
  rw [scanFrames_snoc trs t 0 _ _ (by intro tr htr; have := h tr htr; omega)]
  by_cases hc : mv < find_stop t
  · rw [if_pos (by exact_mod_cast hc), if_pos hc, Nat.zero_add, hk]
  · rw [if_neg (by exact_mod_cast hc), if_neg hc]

/-- C1 (amended): when the skip flag is set and the C gene has no start-motif
entry, `tidy_c_term` returns (without raising) the suffix of the input at the
frame offset in 0..3 — the source tries `range(4)`, so offset 3 is a
candidate — whose translation has the longest run before its first stop,
ties broken in favour of the lowest offset. -/
theorem C1_tidy_c_term_heuristic_frame (nt : List Char) (startM stopM : String → Option (List Char))
    (exonsM : String → Option String) (gene : String) (t0 t1 t2 t3 : List Char)
    (hmiss : startM gene = none)
    (h0 : translate_nt nt = .ok t0) (h1 : translate_nt (nt.drop 1) = .ok t1)
    (h2 : translate_nt (nt.drop 2) = .ok t2) (h3 : translate_nt (nt.drop 3) = .ok t3) :
    ∃ b : Nat, b ≤ 3 ∧
      (∀ f : Nat, f ≤ 3 → find_stop ([t0, t1, t2, t3].getD f []) ≤
        find_stop ([t0, t1, t2, t3].getD b []))
      ∧ (∀ f : Nat, f < b → find_stop ([t0, t1, t2, t3].getD f []) <
        find_stop ([t0, t1, t2, t3].getD b []))
      ∧ tidy_c_term nt true startM stopM exonsM gene =
          .ok (nt.drop b, [t0, t1, t2, t3].getD b []) := by
  have hb0 : ((0 : Nat) == 3) = false := by decide
  have hb1 : ((1 : Nat) == 3) = false := by decide
  have hb2 : ((2 : Nat) == 3) = false := by decide
  have hb3 : ((3 : Nat) == 3) = true := by decide
  have g0 : [t0, t1, t2, t3].getD 0 ([] : List Char) = t0 := rfl
  have g1 : [t0, t1, t2, t3].getD 1 ([] : List Char) = t1 := rfl
  have g2 : [t0, t1, t2, t3].getD 2 ([] : List Char) = t2 := rfl
  have g3 : [t0, t1, t2, t3].getD 3 ([] : List Char) = t3 := rfl
  simp only [tidy_c_term, tidy_go, List.drop_zero, h0, h1, h2, h3, hmiss, Option.isSome_none,
    Bool.not_false, Bool.true_or, List.nil_append, List.cons_append, hb0, hb1, hb2, hb3,
    Bool.true_and, Bool.not_true, Bool.false_or, Bool.false_eq_true, if_false,
    eq_self_iff_true, if_true]
  have e1 : scanFrames 0 [t0] ((-1 : Int), (-1 : Int)) =
      (((0 : Nat) : Int), (find_stop t0 : Int)) := by
    simp only [scanFrames]
    rw [if_pos (by omega)]
  simp only [e1]
  by_cases h01 : find_stop t0 < find_stop t1
  · have e2 : scanFrames 0 [t0, t1] (((0 : Nat) : Int), (find_stop t0 : Int)) =
        (((1 : Nat) : Int), (find_stop t1 : Int)) := by
      rw [show [t0, t1] = [t0] ++ [t1] from rfl,
        scanFrames_step [t0] t1 0 (find_stop t0) 1 rfl
          (by intro tr htr; simp only [List.mem_singleton] at htr; subst htr; omega),
        if_pos h01]
    simp only [e2]
    by_cases h12 : find_stop t1 < find_stop t2
    · have e3 : scanFrames 0 [t0, t1, t2] (((1 : Nat) : Int), (find_stop t1 : Int)) =
          (((2 : Nat) : Int), (find_stop t2 : Int)) := by
        rw [show [t0, t1, t2] = [t0, t1] ++ [t2] from rfl,
          scanFrames_step [t0, t1] t2 1 (find_stop t1) 2 rfl
            (by intro tr htr; simp only [List.mem_cons, List.not_mem_nil, or_false] at htr
                rcases htr with rfl | rfl <;> omega),
          if_pos h12]
      simp only [e3]
      by_cases h23 : find_stop t2 < find_stop t3
      · have e4 : scanFrames 0 [t0, t1, t2, t3] (((2 : Nat) : Int), (find_stop t2 : Int)) =
            (((3 : Nat) : Int), (find_stop t3 : Int)) := by
          rw [show [t0, t1, t2, t3] = [t0, t1, t2] ++ [t3] from rfl,
            scanFrames_step [t0, t1, t2] t3 2 (find_stop t2) 3 rfl
              (by intro tr htr; simp only [List.mem_cons, List.not_mem_nil, or_false] at htr
                  rcases htr with rfl | rfl | rfl <;> omega),
            if_pos h23]
        simp only [e4]
        refine ⟨3, by omega, ?_, ?_, ?_⟩
        · intro f hf; interval_cases f <;> simp only [g0, g1, g2, g3] <;> omega
        · intro f hf; interval_cases f <;> simp only [g0, g1, g2, g3] <;> omega
        · rw [pyDrop_natCast, Int.toNat_natCast]
      · have e4 : scanFrames 0 [t0, t1, t2, t3] (((2 : Nat) : Int), (find_stop t2 : Int)) =
            (((2 : Nat) : Int), (find_stop t2 : Int)) := by
          rw [show [t0, t1, t2, t3] = [t0, t1, t2] ++ [t3] from rfl,
            scanFrames_step [t0, t1, t2] t3 2 (find_stop t2) 3 rfl
              (by intro tr htr; simp only [List.mem_cons, List.not_mem_nil, or_false] at htr
                  rcases htr with rfl | rfl | rfl <;> omega),
            if_neg h23]
        simp only [e4]
        refine ⟨2, by omega, ?_, ?_, ?_⟩
        · intro f hf; interval_cases f <;> simp only [g0, g1, g2, g3] <;> omega
        · intro f hf; interval_cases f <;> simp only [g0, g1, g2, g3] <;> omega
        · rw [pyDrop_natCast, Int.toNat_natCast]
    · have e3 : scanFrames 0 [t0, t1, t2] (((1 : Nat) : Int), (find_stop t1 : Int)) =
          (((1 : Nat) : Int), (find_stop t1 : Int)) := by
        rw [show [t0, t1, t2] = [t0, t1] ++ [t2] from rfl,
          scanFrames_step [t0, t1] t2 1 (find_stop t1) 2 rfl
            (by intro tr htr; simp only [List.mem_cons, List.not_mem_nil, or_false] at htr
                rcases htr with rfl | rfl <;> omega),
          if_neg h12]
      simp only [e3]
      by_cases h13 : find_stop t1 < find_stop t3
      · have e4 : scanFrames 0 [t0, t1, t2, t3] (((1 : Nat) : Int), (find_stop t1 : Int)) =
            (((3 : Nat) : Int), (find_stop t3 : Int)) := by
          rw [show [t0, t1, t2, t3] = [t0, t1, t2] ++ [t3] from rfl,
            scanFrames_step [t0, t1, t2] t3 1 (find_stop t1) 3 rfl
              (by intro tr htr; simp only [List.mem_cons, List.not_mem_nil, or_false] at htr
                  rcases htr with rfl | rfl | rfl <;> omega),
            if_pos h13]
        simp only [e4]
        refine ⟨3, by omega, ?_, ?_, ?_⟩
        · intro f hf; interval_cases f <;> simp only [g0, g1, g2, g3] <;> omega
        · intro f hf; interval_cases f <;> simp only [g0, g1, g2, g3] <;> omega
        · rw [pyDrop_natCast, Int.toNat_natCast]
      · have e4 : scanFrames 0 [t0, t1, t2, t3] (((1 : Nat) : Int), (find_stop t1 : Int)) =
            (((1 : Nat) : Int), (find_stop t1 : Int)) := by
          rw [show [t0, t1, t2, t3] = [t0, t1, t2] ++ [t3] from rfl,
            scanFrames_step [t0, t1, t2] t3 1 (find_stop t1) 3 rfl
              (by intro tr htr; simp only [List.mem_cons, List.not_mem_nil, or_false] at htr
                  rcases htr with rfl | rfl | rfl <;> omega),
            if_neg h13]
        simp only [e4]
        refine ⟨1, by omega, ?_, ?_, ?_⟩
        · intro f hf; interval_cases f <;> simp only [g0, g1, g2, g3] <;> omega
        · intro f hf; interval_cases f; simp only [g0, g1, g2, g3]; omega
        · rw [pyDrop_natCast, Int.toNat_natCast]
  · have e2 : scanFrames 0 [t0, t1] (((0 : Nat) : Int), (find_stop t0 : Int)) =
        (((0 : Nat) : Int), (find_stop t0 : Int)) := by
      rw [show [t0, t1] = [t0] ++ [t1] from rfl,
        scanFrames_step [t0] t1 0 (find_stop t0) 1 rfl
          (by intro tr htr; simp only [List.mem_singleton] at htr; subst htr; omega),
        if_neg h01]
    simp only [e2]
    by_cases h02 : find_stop t0 < find_stop t2
    · have e3 : scanFrames 0 [t0, t1, t2] (((0 : Nat) : Int), (find_stop t0 : Int)) =
          (((2 : Nat) : Int), (find_stop t2 : Int)) := by
        rw [show [t0, t1, t2] = [t0, t1] ++ [t2] from rfl,
          scanFrames_step [t0, t1] t2 0 (find_stop t0) 2 rfl
            (by intro tr htr; simp only [List.mem_cons, List.not_mem_nil, or_false] at htr
                rcases htr with rfl | rfl <;> omega),
          if_pos h02]
      simp only [e3]
      by_cases h23 : find_stop t2 < find_stop t3
      · have e4 : scanFrames 0 [t0, t1, t2, t3] (((2 : Nat) : Int), (find_stop t2 : Int)) =
            (((3 : Nat) : Int), (find_stop t3 : Int)) := by
          rw [show [t0, t1, t2, t3] = [t0, t1, t2] ++ [t3] from rfl,
            scanFrames_step [t0, t1, t2] t3 2 (find_stop t2) 3 rfl
              (by intro tr htr; simp only [List.mem_cons, List.not_mem_nil, or_false] at htr
                  rcases htr with rfl | rfl | rfl <;> omega),
            if_pos h23]
        simp only [e4]
        refine ⟨3, by omega, ?_, ?_, ?_⟩
        · intro f hf; interval_cases f <;> simp only [g0, g1, g2, g3] <;> omega
        · intro f hf; interval_cases f <;> simp only [g0, g1, g2, g3] <;> omega
        · rw [pyDrop_natCast, Int.toNat_natCast]
      · have e4 : scanFrames 0 [t0, t1, t2, t3] (((2 : Nat) : Int), (find_stop t2 : Int)) =
            (((2 : Nat) : Int), (find_stop t2 : Int)) := by
          rw [show [t0, t1, t2, t3] = [t0, t1, t2] ++ [t3] from rfl,
            scanFrames_step [t0, t1, t2] t3 2 (find_stop t2) 3 rfl
              (by intro tr htr; simp only [List.mem_cons, List.not_mem_nil, or_false] at htr
                  rcases htr with rfl | rfl | rfl <;> omega),
            if_neg h23]
        simp only [e4]
        refine ⟨2, by omega, ?_, ?_, ?_⟩
        · intro f hf; interval_cases f <;> simp only [g0, g1, g2, g3] <;> omega
        · intro f hf; interval_cases f <;> simp only [g0, g1, g2, g3] <;> omega
        · rw [pyDrop_natCast, Int.toNat_natCast]
    · have e3 : scanFrames 0 [t0, t1, t2] (((0 : Nat) : Int), (find_stop t0 : Int)) =
          (((0 : Nat) : Int), (find_stop t0 : Int)) := by
        rw [show [t0, t1, t2] = [t0, t1] ++ [t2] from rfl,
          scanFrames_step [t0, t1] t2 0 (find_stop t0) 2 rfl
            (by intro tr htr; simp only [List.mem_cons, List.not_mem_nil, or_false] at htr
                rcases htr with rfl | rfl <;> omega),
          if_neg h02]
      simp only [e3]
      by_cases h03 : find_stop t0 < find_stop t3
      · have e4 : scanFrames 0 [t0, t1, t2, t3] (((0 : Nat) : Int), (find_stop t0 : Int)) =
            (((3 : Nat) : Int), (find_stop t3 : Int)) := by
          rw [show [t0, t1, t2, t3] = [t0, t1, t2] ++ [t3] from rfl,
            scanFrames_step [t0, t1, t2] t3 0 (find_stop t0) 3 rfl
              (by intro tr htr; simp only [List.mem_cons, List.not_mem_nil, or_false] at htr
                  rcases htr with rfl | rfl | rfl <;> omega),
            if_pos h03]
        simp only [e4]
        refine ⟨3, by omega, ?_, ?_, ?_⟩
        · intro f hf; interval_cases f <;> simp only [g0, g1, g2, g3] <;> omega
        · intro f hf; interval_cases f <;> simp only [g0, g1, g2, g3] <;> omega
        · rw [pyDrop_natCast, Int.toNat_natCast]
      · have e4 : scanFrames 0 [t0, t1, t2, t3] (((0 : Nat) : Int), (find_stop t0 : Int)) =
            (((0 : Nat) : Int), (find_stop t0 : Int)) := by
          rw [show [t0, t1, t2, t3] = [t0, t1, t2] ++ [t3] from rfl,
            scanFrames_step [t0, t1, t2] t3 0 (find_stop t0) 3 rfl
              (by intro tr htr; simp only [List.mem_cons, List.not_mem_nil, or_false] at htr
                  rcases htr with rfl | rfl | rfl <;> omega),
            if_neg h03]
        simp only [e4]
        refine ⟨0, by omega, ?_, ?_, ?_⟩
        · intro f hf; interval_cases f <;> simp only [g0, g1, g2, g3] <;> omega
        · intro f hf; omega
        · rw [pyDrop_natCast, Int.toNat_natCast]

/-- C1 counterexample: with the skip flag set and no registered motifs, on
`TAAATAAATAAA` the corrector returns the offset-3 suffix, which differs from
the suffix at every offset in 0..2 — the spec's frame set 0..2 is wrong. -/
theorem C1_counterexample :
    tidy_c_term "TAAATAAATAAA".toList true (fun _ => none) (fun _ => none) (fun _ => none)
        "TRAC" = .ok ("TAAATAAATAAA".toList.drop 3, "INK".toList)
    ∧ "TAAATAAATAAA".toList.drop 0 ≠ "TAAATAAATAAA".toList.drop 3
    ∧ "TAAATAAATAAA".toList.drop 1 ≠ "TAAATAAATAAA".toList.drop 3
    ∧ "TAAATAAATAAA".toList.drop 2 ≠ "TAAATAAATAAA".toList.drop 3 :=
  ⟨by decide, by decide, by decide, by decide⟩

/-- C1 witness: on `ATGGCT` with no motifs the heuristic picks offset 0. -/
theorem C1_witness :
    ∃ b : Nat, b ≤ 3 ∧
      (∀ f : Nat, f ≤ 3 →
        find_stop ([['M', 'A'], ['W'], ['G'], ['A']].getD f []) ≤
          find_stop ([['M', 'A'], ['W'], ['G'], ['A']].getD b []))
      ∧ (∀ f : Nat, f < b →
        find_stop ([['M', 'A'], ['W'], ['G'], ['A']].getD f []) <
          find_stop ([['M', 'A'], ['W'], ['G'], ['A']].getD b []))
      ∧ tidy_c_term "ATGGCT".toList true (fun _ => none) (fun _ => none) (fun _ => none)
          "TRAC" = .ok ("ATGGCT".toList.drop b, [['M', 'A'], ['W'], ['G'], ['A']].getD b []) :=
  C1_tidy_c_term_heuristic_frame "ATGGCT".toList (fun _ => none) (fun _ => none) (fun _ => none)
    "TRAC" ['M', 'A'] ['W'] ['G'] ['A'] rfl rfl rfl rfl rfl

theorem reverse_range_find? (p : Nat → Bool) :
    ∀ (m v : Nat), v < m → (∀ w, v < w → w < m → p w = false) → p v = true →
    ((List.range m).reverse).find? p = some v := by
  intro m
  induction m with
  | zero => intro v hv; omega
  | succ k ih =>
    intro v hv hab hp
    rw [List.range_succ, List.reverse_append, List.reverse_singleton]
    simp only [List.singleton_append]
    by_cases hkv : k = v
    · subst hkv
      exact List.find?_cons_of_pos _ hp
    · rw [List.find?_cons_of_neg _ (by simp [hab k (by omega) (by omega)])]
      exact ih v (by omega) (fun w h1 h2 => hab w h1 (by omega)) hp

theorem csp_of_first (five three : List Char) (v : Nat)
    (hv : v < min five.length three.length)
    (hab : ∀ w, v < w → w < min five.length three.length →
      pyDrop five (-(w : Int)) ≠ three.take w)
    (hp : pyDrop five (-(v : Int)) = three.take v) :
    check_suffix_prefix five three = three.take v := by
  unfold check_suffix_prefix suffixSteps
  rw [reverse_range_find? _ _ v hv
    (fun w h1 h2 => decide_eq_false (hab w h1 h2)) (decide_eq_true hp)]

theorem csp_cases (five three : List Char) :
    check_suffix_prefix five three = [] ∨
    ∃ n, n < min five.length three.length ∧ pyDrop five (-(n : Int)) = three.take n ∧
      check_suffix_prefix five three = three.take n := by
  unfold check_suffix_prefix
  cases hf : (suffixSteps five three).find?
      (fun (n : Nat) => decide (pyDrop five (-(n : Int)) = three.take n)) with
  | none => left; rfl
  | some n =>
    right
    refine ⟨n, ?_, ?_, rfl⟩
    · have hmem := List.mem_of_find?_eq_some hf
      unfold suffixSteps at hmem
      rw [List.mem_reverse, List.mem_range] at hmem
      exact hmem
    · have := List.find?_some hf
      simpa using this

theorem csp_length_le (five three : List Char) (B : Nat)
    (hab : ∀ n, B < n → n < three.length → pyDrop five (-(n : Int)) ≠ three.take n) :
    ( check_suffix_prefix five three).length ≤ B := by
  rcases csp_cases five three with h | ⟨n, hn, hpn, heq⟩
  · rw [h]
    simp
  · rw [heq]
    by_cases hnB : n ≤ B
    · rw [List.length_take]
      exact le_trans (Nat.min_le_left _ _) hnB
    · exact absurd hpn (hab n (by omega) (by omega))

theorem foldl_vOverlapStep_no_improve (v obs : List Char) (st : List Char × Nat) :
    ∀ l : List Nat, (∀ i ∈ l, ( check_suffix_prefix (v.take i) obs).length ≤ st.1.length) →
    l.foldl (vOverlapStep v obs) st = st := by
  intro l
  induction l with
  | nil => intro _; rfl
  | cons j rest ih =>
    intro h
    simp only [List.foldl_cons]
    have hstep : vOverlapStep v obs st j = st := by
      unfold vOverlapStep
      rw [if_neg (by have := h j (List.mem_cons_self _ _); omega)]
    rw [hstep]
    exact ih (fun i hi => h i (List.mem_cons_of_mem _ hi))

theorem vOverlapIdxs_cons (v obs : List Char) (h2 : 2 ≤ obs.length)
    (hlen : obs.length < v.length) :
    ∃ rest, vOverlapIdxs v obs = (v.length - 1) :: rest ∧
      ∀ i ∈ rest, 0 < i ∧ i < v.length - 1 := by
  unfold vOverlapIdxs pyRangeDown
  rw [show ((v.length : Int) - 1 - ((v.length : Int) - obs.length)).toNat =
      (obs.length - 2) + 1 from by omega]
  rw [List.range_succ_eq_map]
  simp only [List.map_cons, Nat.cast_zero, sub_zero]
  rw [List.filter_cons_of_pos (by simp only [decide_eq_true_eq]; omega)]
  simp only [List.map_cons]
  rw [show ((v.length : Int) - 1).toNat = v.length - 1 from by omega]
  refine ⟨_, rfl, ?_⟩
  intro i hi
  simp only [List.mem_map, List.mem_filter, List.mem_range, decide_eq_true_eq] at hi
  obtain ⟨x, ⟨⟨k, hk, rfl⟩, hx⟩, rfl⟩ := hi
  constructor
  · omega
  · omega

theorem pyDrop_neg_eq_suffix (s : List Char) (n : Nat) (h1 : 1 ≤ n) (h2 : n ≤ s.length) :
    pyDrop s (-(n : Int)) = s.drop (s.length - n) := by
  unfold pyDrop pyIdx
  rw [if_neg (by omega)]
  congr 1
  omega

theorem pyTake_natCast (s : List Char) (k : Nat) : pyTake s (k : Int) = s.take k := by
  unfold pyTake pyIdx
  rw [if_pos (by omega), Int.toNat_natCast]
  rcases le_total k s.length with h | h
  · rw [Nat.min_eq_left h]
  · rw [Nat.min_eq_right h, List.take_length, List.take_of_length_le h]

theorem take_append_plus (l1 l2 : List Char) (k : Nat) :
    (l1 ++ l2).take (l1.length + k) = l1 ++ l2.take k := by
  rw [List.take_append_eq_append_take, List.take_of_length_le (by omega)]
  congr 2
  omega

theorem drop_append_plus (l1 l2 : List Char) (k : Nat) :
    (l1 ++ l2).drop (l1.length + k) = l2.drop k := by
  rw [List.drop_append_eq_append_drop, List.drop_eq_nil_of_le (by omega)]
  rw [List.nil_append]
  congr 1
  omega

/-- C5 (amended): on a germline V ending `TGTGCCAGCAGT` and an observed
junction starting `AGCAGTTATGGC` (observed strictly shorter, no accidental
longer overlap anywhere), `find_v_overlap` returns the germline truncated
immediately before its terminal `AGCAGT`, but the overlap string it reports
is `AGCAG` — one residue short of `AGCAGT`, because the scan starts at the
germline shortened by one nucleotide and never tests the full prefix. -/
theorem C5_find_v_overlap_terminal_motif (v obs vp q : List Char)
    (hv : v = vp ++ "TGTGCCAGCAGT".toList)
    (hobs : obs = "AGCAGTTATGGC".toList ++ q)
    (hlen : obs.length < v.length)
    (hacc : ∀ i : Nat, i < v.length → ∀ n : Nat, n < obs.length → 0 < i → 5 < n →
      pyDrop (v.take i) (-(n : Int)) ≠ obs.take n) :
    find_v_overlap v obs = (v.take (v.length - 6), "AGCAG".toList) := by
  have hS : ("TGTGCCAGCAGT".toList).length = 12 := rfl
  have hP : ("AGCAGTTATGGC".toList).length = 12 := rfl
  have hvlen : v.length = vp.length + 12 := by rw [hv, List.length_append, hS]
  have holen : obs.length = 12 + q.length := by rw [hobs, List.length_append, hP]
  obtain ⟨rest, hidx, hrest⟩ := vOverlapIdxs_cons v obs (by omega) hlen
  have h5 : pyDrop (v.take (v.length - 1)) (-((5 : Nat) : Int)) = obs.take 5 := by
    rw [pyDrop_neg_eq_suffix _ 5 (by omega) (by rw [List.length_take]; omega)]
    rw [List.length_take, show min (v.length - 1) v.length - 5 = v.length - 6 from by omega]
    rw [hv, hobs]
    rw [show (vp ++ "TGTGCCAGCAGT".toList).length - 1 = vp.length + 11 from by
      rw [List.length_append, hS]
      omega]
    rw [show (vp ++ "TGTGCCAGCAGT".toList).length - 6 = vp.length + 6 from by
      rw [List.length_append, hS]
      omega]
    rw [take_append_plus, show ("AGCAGTTATGGC".toList ++ q).take 5 =
      ("AGCAGTTATGGC".toList).take 5 ++ q.take (5 - 12) from List.take_append_eq_append_take]
    rw [show (5 : Nat) - 12 = 0 from rfl, List.take_zero, List.append_nil]
    rw [show ("TGTGCCAGCAGT".toList).take 11 = "TGTGCCAGCAG".toList from rfl]
    rw [show vp.length + 6 = (vp.length + 6) + 0 from rfl]
    rw [show vp ++ "TGTGCCAGCAG".toList = (vp ++ "TGTGCC".toList) ++ "AGCAG".toList from by
      rw [List.append_assoc]; rfl]
    rw [show (vp.length + 6 : Nat) = (vp ++ "TGTGCC".toList).length from by
      rw [List.length_append]; rfl]
    rw [List.drop_append_eq_append_drop, List.drop_eq_nil_of_le le_rfl, List.nil_append,
      Nat.sub_self, List.drop_zero]
    rfl
  have hfirst : check_suffix_prefix (v.take (v.length - 1)) obs = "AGCAG".toList := by
    have := csp_of_first (v.take (v.length - 1)) obs 5
      (by rw [List.length_take]; omega)
      (fun w h1 h2 => hacc (v.length - 1) (by omega) w
        (by rw [List.length_take] at h2; omega) (by omega) h1)
      h5
    rw [this, hobs]
    rw [show ("AGCAGTTATGGC".toList ++ q).take 5 =
      ("AGCAGTTATGGC".toList).take 5 ++ q.take (5 - 12) from List.take_append_eq_append_take]
    rw [show (5 : Nat) - 12 = 0 from rfl, List.take_zero, List.append_nil]
    rfl
  unfold find_v_overlap
  rw [hidx]
  simp only [List.foldl_cons]
  have hstep1 : vOverlapStep v obs ([], 0) (v.length - 1) = ("AGCAG".toList, v.length - 1) := by
    unfold vOverlapStep
    rw [hfirst, if_pos (by decide)]
  rw [hstep1]
  rw [foldl_vOverlapStep_no_improve v obs ("AGCAG".toList, v.length - 1) rest ?_]
  · have hc : ((v.length - 1 : Nat) : Int) - (("AGCAG".toList).length : Int) =
        ((v.length - 6 : Nat) : Int) := by
      rw [show ("AGCAG".toList).length = 5 from rfl]
      omega
    rw [hc, pyTake_natCast]
  · intro i hi
    obtain ⟨hi0, hilt⟩ := hrest i hi
    have := csp_length_le (v.take i) obs 5 (fun n h1 h2 => hacc i (by omega) n h2 hi0 h1)
    simpa using this

/-- C5 counterexample: for germline `AAATGTGCCAGCAGT` and observed junction
`AGCAGTTATGGC`, the returned overlap is `AGCAG`, not the claimed `AGCAGT`
(the truncation point itself is as claimed). -/
theorem C5_counterexample :
    (find_v_overlap "AAATGTGCCAGCAGT".toList "AGCAGTTATGGC".toList).2 ≠ "AGCAGT".toList
    ∧ find_v_overlap "AAATGTGCCAGCAGT".toList "AGCAGTTATGGC".toList =
        ("AAATGTGCC".toList, "AGCAG".toList) :=
  ⟨by decide, by decide⟩

/-- C5 witness: the amended statement at the concrete pair from the spec. -/
theorem C5_witness :
    find_v_overlap "AAATGTGCCAGCAGT".toList "AGCAGTTATGGC".toList =
      ("AAATGTGCCAGCAGT".toList.take ("AAATGTGCCAGCAGT".toList.length - 6),
        "AGCAG".toList) :=
  C5_find_v_overlap_terminal_motif "AAATGTGCCAGCAGT".toList "AGCAGTTATGGC".toList
    "AAA".toList [] (by decide) (by decide) (by decide) (by decide)
